import Mathlib

/-!
Verification of the Cloudflare CDN cache-manager worker.

This file gives a shallow embedding, in Lean, of the worker source
(`worker-cdn.js`): the header-map operations of the platform `Headers`
class, the CORS origin-authorization logic, the AWS Signature V4 signer,
the upstream request builder, the response policy transformations, the
request router of the `fetch` entry point, and the purge request handler.
Theorems about these definitions settle the frozen claims about the
specification.
-/

namespace CdnWorker

/-! ## Header maps

Model of the platform `Headers` class: an association list of
(name, value) pairs.  `Headers.set`, `Headers.delete` and `Headers.get`
normalize the header name to lower case; `set` replaces any existing
entry with the same (case-insensitively equal) name.  Keys stored through
`hset` are therefore always lower-case. -/

abbrev HMap := List (String × String)

/-- Lower-casing of a string, character by character: the model of the
JavaScript `toLowerCase` and of the internal normalization the `Headers`
class applies to header names. -/
def jsToLower (s : String) : String := String.mk (s.data.map Char.toLower)

/-- Character-level prefix extraction: model of `substring(0, n)`. -/
def strTake (s : String) (n : Nat) : String := String.mk (s.data.take n)

/-- Character-level suffix extraction: model of `substring(n)`. -/
def strDrop (s : String) (n : Nat) : String := String.mk (s.data.drop n)

/-- Whitespace trimming at both ends: model of the JavaScript `trim`. -/
def jsTrim (s : String) : String :=
  String.mk
    (((s.data.dropWhile Char.isWhitespace).reverse.dropWhile
      Char.isWhitespace).reverse)

/-- Splitting on the comma separator: character-level model of the
JavaScript string split with a comma separator. -/
def splitCommaAux : List Char → List (List Char)
  | [] => [[]]
  | c :: rest =>
    let r := splitCommaAux rest
    if c = ',' then [] :: r
    else
      match r with
      | h :: t => (c :: h) :: t
      | [] => [[c]]

def splitComma (s : String) : List String :=
  (splitCommaAux s.data).map String.mk

def hempty : HMap := []

def hset (h : HMap) (k v : String) : HMap :=
  h.filter (fun p => p.1 != jsToLower k) ++ [(jsToLower k, v)]

def hdelete (h : HMap) (k : String) : HMap :=
  h.filter (fun p => p.1 != jsToLower k)

def hget (h : HMap) (k : String) : Option String :=
  (h.find? (fun p => p.1 == k)).map (fun p => p.2)

/-- Model of `new Headers(other)`: every entry is re-inserted through the
normalizing `set`, so all stored keys come out lower-cased. -/
def normalizeH (src : HMap) : HMap :=
  src.foldl (fun acc kv => hset acc kv.1 kv.2) hempty

theorem hget_nil (q : String) : hget ([] : HMap) q = none := rfl

theorem hget_cons (a : String × String) (t : HMap) (q : String) :
    hget (a :: t) q = if a.1 = q then some a.2 else hget t q := by
  simp only [hget, List.find?]
  by_cases h : a.1 = q
  · simp [h]
  · simp [h, beq_eq_false_iff_ne.2 h]

theorem hget_append (l₁ l₂ : HMap) (q : String) :
    hget (l₁ ++ l₂) q = (hget l₁ q).orElse (fun _ => hget l₂ q) := by
  induction l₁ with
  | nil => rfl
  | cons a t ih =>
    rw [List.cons_append, hget_cons, hget_cons]
    by_cases h : a.1 = q <;> simp [h, ih, Option.orElse]

theorem hget_filter_ne (h : HMap) (k q : String) (hne : q ≠ k) :
    hget (h.filter (fun p => p.1 != k)) q = hget h q := by
  induction h with
  | nil => rfl
  | cons a t ih =>
    by_cases ha : a.1 = k
    · have hb : (a.1 != k) = false := by rw [ha]; simp
      have haq : a.1 ≠ q := by rw [ha]; exact fun hh => hne hh.symm
      simp [List.filter_cons, hb, ih, hget_cons, haq]
    · have hb : (a.1 != k) = true := bne_iff_ne.2 ha
      simp only [List.filter_cons, hb, if_true]
      rw [hget_cons, hget_cons, ih]

theorem hget_filter_self (h : HMap) (k : String) :
    hget (h.filter (fun p => p.1 != k)) k = none := by
  induction h with
  | nil => rfl
  | cons a t ih =>
    by_cases ha : a.1 = k
    · have hb : (a.1 != k) = false := by rw [ha]; simp
      simpa [List.filter_cons, hb] using ih
    · have hb : (a.1 != k) = true := bne_iff_ne.2 ha
      simp only [List.filter_cons, hb, if_true]
      rw [hget_cons]
      simp [ha, ih]

/-- Master lemma for lookups after `set`. -/
theorem hget_hset (h : HMap) (k v q : String) :
    hget (hset h k v) q = if q = jsToLower k then some v else hget h q := by
  rw [hset, hget_append]
  by_cases hq : q = jsToLower k
  · subst hq
    rw [hget_filter_self]
    simp [hget_cons, Option.orElse]
  · rw [hget_filter_ne _ _ _ hq]
    cases hval : hget h q with
    | none =>
      simp only [Option.orElse, hget_cons]
      have hkq : jsToLower k ≠ q := fun hh => hq hh.symm
      simp [hkq, hget_nil, hq]
    | some w => simp [Option.orElse, hq]

/-- Master lemma for lookups after `delete`. -/
theorem hget_hdelete (h : HMap) (k q : String) :
    hget (hdelete h k) q = if q = jsToLower k then none else hget h q := by
  rw [hdelete]
  by_cases hq : q = jsToLower k
  · subst hq; simp [hget_filter_self]
  · simp [hget_filter_ne _ _ _ hq, hq]

theorem hget_hdelete_none (h : HMap) (k q : String) (hq : hget h q = none) :
    hget (hdelete h k) q = none := by
  rw [hget_hdelete]
  by_cases h' : q = jsToLower k <;> simp [h', hq]

theorem hget_foldl_hdelete_none (l : List String) (h : HMap) (q : String)
    (hq : hget h q = none) : hget (l.foldl hdelete h) q = none := by
  induction l generalizing h with
  | nil => simpa using hq
  | cons a t ih => exact ih (hdelete h a) (hget_hdelete_none h a q hq)

/-- Deleting every name in `l` makes each of them absent, provided the
names in `l` are already lower-case (which the purge-blocking list is). -/
theorem hget_foldl_hdelete_mem (l : List String) (h : HMap) (b : String)
    (hb : b ∈ l) (hlow : ∀ x ∈ l, jsToLower x = x) :
    hget (l.foldl hdelete h) b = none := by
  induction l generalizing h with
  | nil => cases hb
  | cons a t ih =>
    rw [List.foldl_cons]
    by_cases hba : b = a
    · subst hba
      refine hget_foldl_hdelete_none t (hdelete h b) b ?_
      rw [hget_hdelete, hlow b (List.mem_cons_self b t)]
      simp
    · have hbt : b ∈ t := by
        cases List.mem_cons.1 hb with
        | inl h' => exact absurd h' hba
        | inr h' => exact h'
      exact ih (hdelete h a) hbt (fun x hx => hlow x (List.mem_cons_of_mem a hx))

theorem hget_foldl_hdelete_ne (l : List String) (h : HMap) (q : String)
    (hq : ∀ x ∈ l, jsToLower x ≠ q) :
    hget (l.foldl hdelete h) q = hget h q := by
  induction l generalizing h with
  | nil => rfl
  | cons a t ih =>
    rw [List.foldl_cons, ih (hdelete h a) (fun x hx => hq x (List.mem_cons_of_mem a hx)),
      hget_hdelete]
    have : q ≠ jsToLower a := fun hh => hq a (List.mem_cons_self a t) hh.symm
    simp [this]

/-! ## MIME table and path-extension logic -/

def MIME_TYPES : List (String × String) := [
  (".mp4", "video/mp4"), (".webm", "video/webm"), (".ogg", "video/ogg"),
  (".avi", "video/x-msvideo"), (".mov", "video/quicktime"),
  (".mkv", "video/x-matroska"), (".m4v", "video/x-m4v"),
  (".flv", "video/x-flv"), (".wmv", "video/x-ms-wmv"),
  (".mpg", "video/mpeg"), (".mpeg", "video/mpeg"), (".3gp", "video/3gpp"),
  (".mpd", "application/dash+xml"),
  (".mp3", "audio/mpeg"), (".wav", "audio/wav"), (".m4a", "audio/mp4"),
  (".aac", "audio/aac"), (".flac", "audio/flac"), (".opus", "audio/opus"),
  (".weba", "audio/webm"), (".oga", "audio/ogg"),
  (".jpg", "image/jpeg"), (".jpeg", "image/jpeg"), (".png", "image/png"),
  (".gif", "image/gif"), (".webp", "image/webp"), (".svg", "image/svg+xml"),
  (".ico", "image/x-icon"), (".bmp", "image/bmp"), (".tiff", "image/tiff"),
  (".tif", "image/tiff"), (".avif", "image/avif"),
  (".html", "text/html"), (".htm", "text/html"), (".css", "text/css"),
  (".js", "application/javascript"), (".mjs", "application/javascript"),
  (".json", "application/json"), (".xml", "application/xml"),
  (".txt", "text/plain"),
  (".woff", "font/woff"), (".woff2", "font/woff2"), (".ttf", "font/ttf"),
  (".otf", "font/otf"), (".eot", "application/vnd.ms-fontobject"),
  (".pdf", "application/pdf"), (".doc", "application/msword"),
  (".docx", "application/vnd.openxmlformats-officedocument.wordprocessingml.document"),
  (".xls", "application/vnd.ms-excel"),
  (".xlsx", "application/vnd.openxmlformats-officedocument.spreadsheetml.sheet"),
  (".ppt", "application/vnd.ms-powerpoint"),
  (".pptx", "application/vnd.openxmlformats-officedocument.presentationml.presentation"),
  (".zip", "application/zip"), (".rar", "application/vnd.rar"),
  (".tar", "application/x-tar"), (".gz", "application/gzip"),
  (".7z", "application/x-7z-compressed"),
  (".wasm", "application/wasm"), (".csv", "text/csv"),
  (".md", "text/markdown"), (".yaml", "text/yaml"), (".yml", "text/yaml")]

/-- Extension extraction shared by `getMimeType` and `isFontRequest`:
model of `pathname.toLowerCase().match(/\.[^.]+$/)?.[0]` - the final
dot-initiated run of one or more non-dot characters, on the lower-cased
path, or nothing. -/
def extOf (pathname : String) : Option String :=
  let rev := (jsToLower pathname).data.reverse
  let pre := rev.takeWhile (fun c => c != '.')
  match rev.drop pre.length with
  | '.' :: _ => if pre.isEmpty then none else some (String.mk ('.' :: pre.reverse))
  | _ => none

def getMimeType (pathname : String) : Option String :=
  match extOf pathname with
  | some ext => (MIME_TYPES.find? (fun kv => kv.1 == ext)).map (fun kv => kv.2)
  | none => none

def isFontRequest (pathname : String) : Bool :=
  match extOf pathname with
  | some ext => [".woff", ".woff2", ".ttf", ".otf", ".eot"].contains ext
  | none => false

/-! ## Purge-blocking header names -/

def PURGE_BLOCKING_HEADERS : List String := [
  "x-forwarded-host",
  "x-host",
  "x-forwarded-scheme",
  "x-original-url",
  "x-rewrite-url",
  "forwarded",
  "origin"]

/-! ## Origin authorization -/

/-- Evaluation of the per-domain pattern the worker compiles, fused with
its construction: `new RegExp((^|\.) ++ escapedDomain ++ $)` tested
against a hostname.  A match either starts at the beginning of the
hostname (the `^` alternative: the hostname is exactly the domain) or
consumes a literal dot somewhere (searched at every position) followed by
the domain, anchored at the end.  The construction escapes the dots of
the domain, so the domain is matched literally (domains contain no other
regex metacharacters). -/
def dotMatch (domain : List Char) : List Char → Bool
  | [] => false
  | c :: rest => (c == '.' && rest == domain) || dotMatch domain rest

def patternTest (domain hostname : String) : Bool :=
  hostname.data == domain.data || dotMatch domain.data hostname.data

def hostChar (c : Char) : Bool := c != '/' && c != ':' && c != '?' && c != '#'

/-- Scanning helper for `parseHostname`: finds the first colon and
requires it to be followed by two slashes, returning the scheme before it
and the remainder after the slashes. -/
def splitSchemeSep (acc : List Char) : List Char → Option (List Char × List Char)
  | [] => none
  | ':' :: rest =>
    match rest with
    | '/' :: '/' :: tail => some (acc.reverse, tail)
    | _ => none
  | c :: rest => splitSchemeSep (c :: acc) rest

/-- Modelled platform primitive: `new URL(origin).hostname` for an Origin
header value, which has the shape scheme://host[:port], possibly followed
by a path.  Parsing fails (the worker catches the exception and returns
false) when there is no scheme://host shape or the host is empty; the
hostname comes out lower-cased, as the URL class normalizes it. -/
def parseHostname (s : String) : Option String :=
  match splitSchemeSep [] s.data with
  | none => none
  | some (scheme, rest) =>
    let host := rest.takeWhile hostChar
    match scheme with
    | [] => none
    | c :: _ =>
      if c.isAlpha && !host.isEmpty then some (String.mk (host.map Char.toLower))
      else none

def isOriginAllowed (origin : String) (allowedDomains : List String) : Bool :=
  match parseHostname origin with
  | some hostname => allowedDomains.any (fun d => patternTest d hostname)
  | none => false

/-- Mirrors `isSafeNoCorsRequest(req, origin)`: the Origin header is
absent (null) or the literal string "null", and the method is GET, HEAD
or OPTIONS. -/
def isSafeNoCorsRequest (method : String) (origin : Option String) : Bool :=
  if !(origin == none || origin == some "null") then false
  else if method != "GET" && method != "HEAD" && method != "OPTIONS" then false
  else true

/-- Truthiness of an optional environment string, as JavaScript sees it:
absent and empty are falsy. -/
def truthy : Option String → Bool
  | none => false
  | some s => s != ""

/-- Allowed-domain list built from the ALLOWED_ORIGINS environment value:
comma-split, trimmed, empties dropped; the default list is empty.  The
per-domain RegExp construction is fused into `patternTest`. -/
def allowedOf (allowedOriginsEnv : Option String) : List String :=
  if truthy allowedOriginsEnv then
    (((splitComma (allowedOriginsEnv.getD "")).map jsTrim).filter
      (fun d => d != ""))
  else []

/-- Condition of the second CORS branch: `origin && isOriginAllowed(origin,
allowed)` - the header is present, non-empty and its hostname matches. -/
def corsCond2 (origin : Option String) (allowed : List String) : Bool :=
  match origin with
  | some o => o != "" && isOriginAllowed o allowed
  | none => false

/-- CORS header application at the final-response call site (the inline
chain of the proxy pipeline, step 4 of `fetch`).  Note it sets three
headers in each granting branch and never Access-Control-Max-Age. -/
def applyCorsFinal (headers : HMap) (pathname : String) (origin : Option String)
    (method : String) (allowed : List String) : HMap :=
  if isFontRequest pathname then
    hset (hset (hset headers "Access-Control-Allow-Origin" "*")
      "Access-Control-Allow-Methods" "GET, HEAD, OPTIONS")
      "Access-Control-Allow-Headers" "Content-Type, Range"
  else if corsCond2 origin allowed then
    hset (hset (hset headers "Access-Control-Allow-Origin" (origin.getD ""))
      "Access-Control-Allow-Methods" "GET, HEAD, OPTIONS")
      "Access-Control-Allow-Headers" "Content-Type, Range"
  else if isSafeNoCorsRequest method origin then
    hset (hset (hset headers "Access-Control-Allow-Origin" "*")
      "Access-Control-Allow-Methods" "GET, HEAD, OPTIONS")
      "Access-Control-Allow-Headers" "Content-Type, Range"
  else headers

/-- CORS header set built for the OPTIONS preflight response (step 1.25
of `fetch`): starts from `new Headers()` and sets four headers in each
granting branch, including Access-Control-Max-Age. -/
def preflightCorsHeaders (pathname : String) (origin : Option String)
    (method : String) (allowed : List String) : HMap :=
  if isFontRequest pathname then
    hset (hset (hset (hset hempty "Access-Control-Allow-Origin" "*")
      "Access-Control-Allow-Methods" "GET, HEAD, OPTIONS")
      "Access-Control-Allow-Headers" "Content-Type, Range")
      "Access-Control-Max-Age" "86400"
  else if corsCond2 origin allowed then
    hset (hset (hset (hset hempty "Access-Control-Allow-Origin" (origin.getD ""))
      "Access-Control-Allow-Methods" "GET, HEAD, OPTIONS")
      "Access-Control-Allow-Headers" "Content-Type, Range")
      "Access-Control-Max-Age" "86400"
  else if isSafeNoCorsRequest method origin then
    hset (hset (hset (hset hempty "Access-Control-Allow-Origin" "*")
      "Access-Control-Allow-Methods" "GET, HEAD, OPTIONS")
      "Access-Control-Allow-Headers" "Content-Type, Range")
      "Access-Control-Max-Age" "86400"
  else hempty

/-- One of the three granting conditions holds. -/
def corsGranted (pathname : String) (origin : Option String) (method : String)
    (allowed : List String) : Bool :=
  isFontRequest pathname || corsCond2 origin allowed ||
    isSafeNoCorsRequest method origin

/-! ## AWS Signature Version 4 signing

The cryptographic primitives (`crypto.subtle` SHA-256 and HMAC-SHA-256)
are platform externals; the signer is embedded parametrically over them.
`B` is the type of raw digest buffers.  `hmacS` is the keyed hash with a
string key (the importKey branch for string keys), `hmacB` with a buffer
key, `toHex` the concrete byte-to-lower-hex rendering (its only property
used here is injectivity, which the real rendering of 32-byte digests
has). -/

structure CryptoM (B : Type) where
  sha256 : String → B
  hmacS : String → String → B
  hmacB : B → String → B
  toHex : B → String

/-- Chained key derivation `getSignatureKey`: each keyed-hash output is
the next key. -/
def getSignatureKey {B : Type} (M : CryptoM B) (key : String)
    (dateStamp regionName serviceName : String) : B :=
  let kDate := M.hmacS key dateStamp
  let kRegion := M.hmacB kDate regionName
  let kService := M.hmacB kRegion serviceName
  M.hmacB kService "aws4_request"

/-- Storage configuration loaded from the secret JSON file.  A field
absent from the JSON destructures to `undefined`; `none` models that. -/
structure S3Cfg where
  bucket : Option String
  endpoint : Option String
  region : Option String
  accessKeyId : Option String
  secretAccessKey : Option String

/-- JavaScript coercion of a possibly-undefined string into a template
literal or string concatenation: `undefined` becomes the text
"undefined". -/
def jsStr : Option String → String
  | none => "undefined"
  | some s => s

/-- JavaScript coercion of a possibly-undefined string passed as the
TextEncoder.encode argument: passing `undefined` explicitly selects the
default parameter, the empty string. -/
def jsEnc : Option String → String
  | none => ""
  | some s => s

/-- Parsed pieces of the target URL, as `new URL(s3Url)` exposes them to
the signer: `hostname`, the percent-encoded `pathname` used verbatim, and
`search` including its leading question mark when non-empty. -/
structure UrlParts where
  hostname : String
  pathname : String
  search : String

structure SigningResult where
  amzDate : String
  contentSha : String
  authorization : String

/-- Shallow embedding of `signAwsRequest`.  The captured timestamp
(`new Date()` formatted to the compact ISO form) is passed in as
`amzDate`, making the once-per-call capture explicit; the `headers`
argument is accepted and ignored exactly as in the source. -/
def signAwsRequest {B : Type} (M : CryptoM B) (method : String)
    (url : UrlParts) (headers : HMap) (payload : String) (config : S3Cfg)
    (amzDate : String) : SigningResult :=
  let host := url.hostname
  let canonicalUri := url.pathname
  let canonicalQuerystring := strDrop url.search 1
  let dateStamp := strTake amzDate 8
  let payloadHash :=
    if payload != "" then M.toHex (M.sha256 payload) else M.toHex (M.sha256 "")
  let canonicalHeaders :=
    "host:" ++ host ++ "\nx-amz-content-sha256:" ++ payloadHash ++
      "\nx-amz-date:" ++ amzDate ++ "\n"
  let signedHeaders := "host;x-amz-content-sha256;x-amz-date"
  let canonicalRequest :=
    method ++ "\n" ++ canonicalUri ++ "\n" ++ canonicalQuerystring ++ "\n" ++
      canonicalHeaders ++ "\n" ++ signedHeaders ++ "\n" ++ payloadHash
  let algorithm := "AWS4-HMAC-SHA256"
  let credentialScope :=
    dateStamp ++ "/" ++ jsStr config.region ++ "/" ++ "s3" ++ "/aws4_request"
  let canonicalRequestHash := M.toHex (M.sha256 canonicalRequest)
  let stringToSign :=
    algorithm ++ "\n" ++ amzDate ++ "\n" ++ credentialScope ++ "\n" ++
      canonicalRequestHash
  let signingKey :=
    getSignatureKey M ("AWS4" ++ jsStr config.secretAccessKey) dateStamp
      (jsEnc config.region) "s3"
  let signature := M.toHex (M.hmacB signingKey stringToSign)
  let authorizationHeader :=
    algorithm ++ " Credential=" ++ jsStr config.accessKeyId ++ "/" ++
      credentialScope ++ ", SignedHeaders=" ++ signedHeaders ++
      ", Signature=" ++ signature
  { amzDate := amzDate
    contentSha := payloadHash
    authorization := authorizationHeader }

/-! ## Upstream request builder (fetch steps 2 - 3.5) -/

/-- Header assembly for the outbound storage request: copy the inbound
headers, skipping any whose lower-cased name is purge-blocking; then
overwrite Host; then merge the three signing headers last. -/
def buildUpstreamHeaders (reqHeaders : HMap) (s3Host : String)
    (sr : SigningResult) : HMap :=
  let newHeaders := reqHeaders.foldl
    (fun acc kv =>
      if PURGE_BLOCKING_HEADERS.contains (jsToLower kv.1) then acc
      else hset acc kv.1 kv.2)
    hempty
  let newHeaders := hset newHeaders "Host" s3Host
  let newHeaders := hset newHeaders "x-amz-date" sr.amzDate
  let newHeaders := hset newHeaders "x-amz-content-sha256" sr.contentSha
  hset newHeaders "Authorization" sr.authorization

/-! ## Response policy engine (fetch steps 4 - 5) -/

/-- Content-type override: set only when the extension table recognizes
the path. -/
def contentTypeStep (headers : HMap) (pathname : String) : HMap :=
  match getMimeType pathname with
  | some mimeType => hset headers "Content-Type" mimeType
  | none => headers

/-- Cache-control synthesis from the upstream status. -/
def cacheControlStep (headers : HMap) (status : Nat) : HMap :=
  if status == 404 || status == 403 then
    hset headers "Cache-Control" "public, max-age=300, s-maxage=31536000, immutable"
  else
    hset headers "Cache-Control" "public, max-age=60, s-maxage=31536000, must-revalidate"

/-- Final strip: delete every purge-blocking name, then Vary, Pragma and
Expires. -/
def stripStep (headers : HMap) : HMap :=
  hdelete (hdelete (hdelete (PURGE_BLOCKING_HEADERS.foldl hdelete headers)
    "Vary") "Pragma") "Expires"

/-- Client-facing header synthesis: start from a copy of the origin
response headers, override Content-Type from the extension table when
recognized, set Accept-Ranges, apply the final-response CORS chain, set
Cache-Control from the upstream status, then strip the purge-blocking
set, Vary, Pragma and Expires. -/
def buildClientHeaders (originHeaders : HMap) (pathname : String)
    (origin : Option String) (method : String) (allowed : List String)
    (status : Nat) : HMap :=
  stripStep
    (cacheControlStep
      (applyCorsFinal
        (hset (contentTypeStep (normalizeH originHeaders) pathname)
          "Accept-Ranges" "bytes")
        pathname origin method allowed)
      status)

/-! ## JSON values and the purge handler -/

/-- Primitive JSON values that can populate the purge body fields, with
the JavaScript coercions the handler applies to them. -/
inductive JVal where
  | jnull
  | jbool (b : Bool)
  | jnum (n : Int)
  | jstr (s : String)
deriving DecidableEq

/-- JavaScript truthiness of a destructured, possibly-absent field. -/
def jsTruthy : Option JVal → Bool
  | none => false
  | some .jnull => false
  | some (.jbool b) => b
  | some (.jnum n) => n != 0
  | some (.jstr s) => s != ""

/-- JavaScript string coercion, as the URL constructor applies to its
argument. -/
def jvalToString : Option JVal → String
  | none => "undefined"
  | some .jnull => "null"
  | some (.jbool true) => "true"
  | some (.jbool false) => "false"
  | some (.jnum n) => toString n
  | some (.jstr s) => s

/-- Strict equality `token !== secret` (negated) between the destructured
token field and the configured secret string: only an identical string
compares equal. -/
def tokenEq (token : Option JVal) (secret : Option String) : Bool :=
  match token, secret with
  | some (.jstr s), some sec => s == sec
  | _, _ => false

/-- Substring search over character lists, for `contentType.includes`. -/
def containsSub (needle : List Char) : List Char → Bool
  | [] => needle.isEmpty
  | c :: rest => needle.isPrefixOf (c :: rest) || containsSub needle rest

def strContains (hay needle : String) : Bool :=
  containsSub needle.data hay.data

def isSchemeChar (c : Char) : Bool :=
  c.isAlphanum || c == '+' || c == '-' || c == '.'

def schemeThenColon : List Char → Bool
  | [] => false
  | ':' :: _ => true
  | c :: rest => isSchemeChar c && schemeThenColon rest

/-- Modelled platform primitive: success of `new URL(s)` for the purge
url field - the string must carry a syntactically valid scheme (a letter
followed by scheme characters) terminated by a colon. -/
def isAbsoluteUrl (s : String) : Bool :=
  match s.data with
  | [] => false
  | c :: rest => c.isAlpha && schemeThenColon rest

/-- Modelled platform primitive: the derived origin of a parsed URL,
`protocol + // + host` where host keeps its port.  Used only on urls
that already passed `isAbsoluteUrl`. -/
def urlOrigin (s : String) : String :=
  match splitSchemeSep [] s.data with
  | some (scheme, rest) =>
    String.mk (scheme ++ (':' :: '/' :: '/' ::
      rest.takeWhile (fun c => c != '/' && c != '?' && c != '#')))
  | none => s

/-- Parsed purge request body.  `headers` is the optional extra header
object relayed into the purge payload; only its `origin` entry matters to
the handler. -/
structure PurgeBody where
  url : Option JVal
  headersOrigin : Option String
  token : Option JVal

/-- Environment bindings the worker consumes. -/
structure Env where
  ALLOWED_ORIGINS : Option String
  DISABLE_HTTPS_REDIRECT : Option String
  CF_ZONE_ID : Option String
  CF_API_TOKEN : Option String
  CF_PURGE_TOKEN : Option String

/-- Outcome of `handlePurgeRequest` before any network activity: either
an early response carrying a status and an error message, or the single
outbound call to the purge API carrying the validated url. -/
inductive PurgeOutcome where
  | response (status : Nat) (error : String)
  | apiCall (url : String) (originHeader : String)
deriving DecidableEq

/-- Shallow embedding of `handlePurgeRequest` up to the outbound call.
The body is given already parsed: `none` stands for an empty body or
unparsable JSON, both of which the source answers with 400 before the
field validations. -/
def handlePurge (method : String) (contentType : Option String)
    (body : Option PurgeBody) (env : Env) : PurgeOutcome :=
  if method != "POST" then
    .response 405 "Method not allowed. Use POST."
  else if !(strContains (contentType.getD "") "application/json") then
    .response 400 "Invalid Content-Type. Use application/json."
  else
    match body with
    | none => .response 400 "Empty request body"
    | some b =>
      if !(truthy env.CF_ZONE_ID) then
        .response 500 "Missing CF_ZONE_ID environment variable"
      else if !(truthy env.CF_API_TOKEN) then
        .response 500 "Missing CF_API_TOKEN environment variable"
      else if truthy env.CF_PURGE_TOKEN && !(tokenEq b.token env.CF_PURGE_TOKEN) then
        .response 401 "Unauthorized"
      else if !(jsTruthy b.url) then
        .response 400 "Missing \x27url\x27 parameter"
      else if !(isAbsoluteUrl (jvalToString b.url)) then
        .response 400 "Invalid URL format"
      else
        .apiCall (jvalToString b.url)
          (match b.headersOrigin with
           | some o => o
           | none => urlOrigin (jvalToString b.url))

/-! ## Worker entry: routing -/

/-- Inbound request as the worker sees it: URL pieces from `new
URL(req.url)`, the Origin header, the full header map, and the purge
body as the JSON layer would deliver it. -/
structure Req where
  method : String
  protocol : String
  host : String
  pathname : String
  search : String
  origin : Option String
  headers : HMap
  purgeBody : Option PurgeBody

/-- The four exits of the top of `fetch`: HTTPS upgrade redirect, OPTIONS
preflight, purge dispatch, or the storage proxy pipeline. -/
inductive Routed where
  | redirect (location : String)
  | preflight
  | purge
  | proxy
deriving DecidableEq

def route (req : Req) (env : Env) : Routed :=
  if req.protocol == "http:" && !(truthy env.DISABLE_HTTPS_REDIRECT) then
    .redirect ("https://" ++ req.host ++ req.pathname ++ req.search)
  else if req.method == "OPTIONS" then
    .preflight
  else if req.method == "POST" && req.pathname == "/.purge" then
    .purge
  else
    .proxy

/-- Outbound fetches a routed branch performs: (to the storage origin,
to the purge API).  The proxy branch always fetches storage once; the
purge branch makes at most one purge-API call, counted here; the other
branches reach no network at all. -/
def upstreamCalls : Routed → Nat × Nat
  | .redirect _ => (0, 0)
  | .preflight => (0, 0)
  | .purge => (0, 1)
  | .proxy => (1, 0)

structure Response where
  status : Nat
  headers : HMap
  body : Option String
deriving DecidableEq

/-- Relay of the purge outcome into a client response: early validation
responses keep their status; the API call result is relayed - a 200
success wrapper when the API answered ok, the API status otherwise. -/
def purgeClientResponse (o : PurgeOutcome) (purgeApiResp : Response) : Response :=
  match o with
  | .response status err =>
    { status := status
      headers := [("content-type", "application/json")]
      body := some err }
  | .apiCall _ _ =>
    if 200 ≤ purgeApiResp.status && purgeApiResp.status ≤ 299 then
      { status := 200
        headers := [("content-type", "application/json")]
        body := purgeApiResp.body }
    else
      { status := purgeApiResp.status
        headers := [("content-type", "application/json")]
        body := purgeApiResp.body }

/-- Whole-worker response function.  The two external responses (storage
origin and purge API) are oracle inputs; only the branch selected by
`route` consumes its oracle. -/
def workerFetch (req : Req) (env : Env) (upstream purgeApiResp : Response) :
    Response :=
  match route req env with
  | .redirect loc =>
    { status := 301, headers := [("location", loc)], body := none }
  | .preflight =>
    { status := 204
      headers := preflightCorsHeaders req.pathname req.origin req.method
        (allowedOf env.ALLOWED_ORIGINS)
      body := none }
  | .purge =>
    purgeClientResponse
      (handlePurge req.method (hget req.headers "content-type") req.purgeBody env)
      purgeApiResp
  | .proxy =>
    { status := upstream.status
      headers := buildClientHeaders upstream.headers req.pathname req.origin
        req.method (allowedOf env.ALLOWED_ORIGINS) upstream.status
      body := upstream.body }

/-! ## Stage lemmas for the response policy engine -/

theorem hget_contentTypeStep_ne (h : HMap) (p q : String)
    (hq : q ≠ "content-type") : hget (contentTypeStep h p) q = hget h q := by
  unfold contentTypeStep
  have e : jsToLower "Content-Type" = "content-type" := by decide
  cases getMimeType p with
  | none => rfl
  | some m => rw [hget_hset, e]; simp [hq]

theorem hget_cacheControlStep_ne (h : HMap) (st : Nat) (q : String)
    (hq : q ≠ "cache-control") : hget (cacheControlStep h st) q = hget h q := by
  unfold cacheControlStep
  have e : jsToLower "Cache-Control" = "cache-control" := by decide
  split <;> (rw [hget_hset, e]; simp [hq])

theorem hget_cacheControlStep_self (h : HMap) (st : Nat) :
    hget (cacheControlStep h st) "cache-control" =
      some (if st == 404 || st == 403
        then "public, max-age=300, s-maxage=31536000, immutable"
        else "public, max-age=60, s-maxage=31536000, must-revalidate") := by
  unfold cacheControlStep
  have e : jsToLower "Cache-Control" = "cache-control" := by decide
  by_cases hc : (st == 404 || st == 403) = true <;> simp [hc, hget_hset, e]

theorem hget_stripStep_ne (h : HMap) (q : String)
    (h1 : ∀ x ∈ PURGE_BLOCKING_HEADERS, jsToLower x ≠ q)
    (h2 : q ≠ "vary") (h3 : q ≠ "pragma") (h4 : q ≠ "expires") :
    hget (stripStep h) q = hget h q := by
  unfold stripStep
  have ev : jsToLower "Vary" = "vary" := by decide
  have ep : jsToLower "Pragma" = "pragma" := by decide
  have ee : jsToLower "Expires" = "expires" := by decide
  rw [hget_hdelete, ee]
  rw [if_neg h4, hget_hdelete, ep, if_neg h3, hget_hdelete, ev, if_neg h2]
  exact hget_foldl_hdelete_ne _ _ _ h1

theorem hget_stripStep_blocked (h : HMap) (b : String)
    (hb : b ∈ PURGE_BLOCKING_HEADERS) : hget (stripStep h) b = none := by
  unfold stripStep
  have hfold : hget (PURGE_BLOCKING_HEADERS.foldl hdelete h) b = none :=
    hget_foldl_hdelete_mem _ h b hb (by decide)
  exact hget_hdelete_none _ _ _ (hget_hdelete_none _ _ _ (hget_hdelete_none _ _ _ hfold))

theorem hget_applyCorsFinal_other (h : HMap) (p : String) (o : Option String)
    (m : String) (a : List String) (q : String)
    (h1 : q ≠ "access-control-allow-origin")
    (h2 : q ≠ "access-control-allow-methods")
    (h3 : q ≠ "access-control-allow-headers") :
    hget (applyCorsFinal h p o m a) q = hget h q := by
  unfold applyCorsFinal
  have e1 : jsToLower "Access-Control-Allow-Origin" = "access-control-allow-origin" := by decide
  have e2 : jsToLower "Access-Control-Allow-Methods" = "access-control-allow-methods" := by decide
  have e3 : jsToLower "Access-Control-Allow-Headers" = "access-control-allow-headers" := by decide
  split_ifs <;> simp [hget_hset, e1, e2, e3, h1, h2, h3]

theorem hget_applyCorsFinal_acao (h : HMap) (p : String) (o : Option String)
    (m : String) (a : List String) :
    hget (applyCorsFinal h p o m a) "access-control-allow-origin" =
      (if isFontRequest p then some "*"
       else if corsCond2 o a then some (o.getD "")
       else if isSafeNoCorsRequest m o then some "*"
       else hget h "access-control-allow-origin") := by
  unfold applyCorsFinal
  have e1 : jsToLower "Access-Control-Allow-Origin" = "access-control-allow-origin" := by decide
  have e2 : jsToLower "Access-Control-Allow-Methods" = "access-control-allow-methods" := by decide
  have e3 : jsToLower "Access-Control-Allow-Headers" = "access-control-allow-headers" := by decide
  split_ifs <;> simp [hget_hset, e1, e2, e3]

theorem hget_applyCorsFinal_acam (h : HMap) (p : String) (o : Option String)
    (m : String) (a : List String) :
    hget (applyCorsFinal h p o m a) "access-control-allow-methods" =
      (if corsGranted p o m a then some "GET, HEAD, OPTIONS"
       else hget h "access-control-allow-methods") := by
  have e1 : jsToLower "Access-Control-Allow-Origin" = "access-control-allow-origin" := by decide
  have e2 : jsToLower "Access-Control-Allow-Methods" = "access-control-allow-methods" := by decide
  have e3 : jsToLower "Access-Control-Allow-Headers" = "access-control-allow-headers" := by decide
  by_cases hf : isFontRequest p = true
  · simp [applyCorsFinal, corsGranted, hf, hget_hset, e1, e2, e3]
  · by_cases hc : corsCond2 o a = true
    · simp [applyCorsFinal, corsGranted, hf, hc, hget_hset, e1, e2, e3]
    · by_cases hs : isSafeNoCorsRequest m o = true
      · simp [applyCorsFinal, corsGranted, hf, hc, hs, hget_hset, e1, e2, e3]
      · simp [applyCorsFinal, corsGranted, hf, hc, hs]

theorem hget_applyCorsFinal_acah (h : HMap) (p : String) (o : Option String)
    (m : String) (a : List String) :
    hget (applyCorsFinal h p o m a) "access-control-allow-headers" =
      (if corsGranted p o m a then some "Content-Type, Range"
       else hget h "access-control-allow-headers") := by
  have e1 : jsToLower "Access-Control-Allow-Origin" = "access-control-allow-origin" := by decide
  have e2 : jsToLower "Access-Control-Allow-Methods" = "access-control-allow-methods" := by decide
  have e3 : jsToLower "Access-Control-Allow-Headers" = "access-control-allow-headers" := by decide
  by_cases hf : isFontRequest p = true
  · simp [applyCorsFinal, corsGranted, hf, hget_hset, e1, e2, e3]
  · by_cases hc : corsCond2 o a = true
    · simp [applyCorsFinal, corsGranted, hf, hc, hget_hset, e1, e2, e3]
    · by_cases hs : isSafeNoCorsRequest m o = true
      · simp [applyCorsFinal, corsGranted, hf, hc, hs, hget_hset, e1, e2, e3]
      · simp [applyCorsFinal, corsGranted, hf, hc, hs]

theorem contains_true_iff (l : List String) (x : String) :
    l.contains x = true ↔ x ∈ l := by
  simp [List.contains, List.elem_iff]

/-- Copying inbound headers while skipping purge-blocking names never
introduces a purge-blocking name. -/
theorem hget_copyfold_blocked (src : HMap) (acc : HMap) (b : String)
    (hb : b ∈ PURGE_BLOCKING_HEADERS) (hacc : hget acc b = none) :
    hget (src.foldl
      (fun acc kv =>
        if PURGE_BLOCKING_HEADERS.contains (jsToLower kv.1) then acc
        else hset acc kv.1 kv.2)
      acc) b = none := by
  induction src generalizing acc with
  | nil => simpa using hacc
  | cons kv t ih =>
    rw [List.foldl_cons]
    by_cases hc : PURGE_BLOCKING_HEADERS.contains (jsToLower kv.1) = true
    · rw [if_pos hc]; exact ih acc hacc
    · rw [if_neg hc]
      refine ih _ ?_
      rw [hget_hset]
      have hne : b ≠ jsToLower kv.1 := by
        intro he
        exact hc ((contains_true_iff _ _).2 (he ▸ hb))
      simp [hne, hacc]

/-! ## Claim theorems -/

/-- C9: the client-facing Cache-Control header is exactly the long
negative-caching value when the upstream status is 404 or 403, and the
revalidating value for every other status, regardless of any
Cache-Control the origin response carried. -/
theorem cache_control_by_status (oh : HMap) (p : String) (o : Option String)
    (m : String) (a : List String) (st : Nat) :
    hget (buildClientHeaders oh p o m a st) "cache-control" =
      some (if st == 404 || st == 403
        then "public, max-age=300, s-maxage=31536000, immutable"
        else "public, max-age=60, s-maxage=31536000, must-revalidate") := by
  unfold buildClientHeaders
  rw [hget_stripStep_ne _ _ (by decide) (by decide) (by decide) (by decide)]
  exact hget_cacheControlStep_self _ _

/-- C3: no purge-blocking header name survives into the outbound storage
request headers, nor into the final client-facing header set, whatever
headers the inbound request and the origin response carried. -/
theorem purge_blocking_stripped_both_directions
    (reqHeaders : HMap) (s3Host : String) (sr : SigningResult)
    (oh : HMap) (p : String) (o : Option String) (m : String)
    (a : List String) (st : Nat) (b : String)
    (hb : b ∈ PURGE_BLOCKING_HEADERS) :
    hget (buildUpstreamHeaders reqHeaders s3Host sr) b = none ∧
    hget (buildClientHeaders oh p o m a st) b = none := by
  have hall : ∀ x ∈ PURGE_BLOCKING_HEADERS, x ≠ "host" ∧ x ≠ "x-amz-date" ∧
      x ≠ "x-amz-content-sha256" ∧ x ≠ "authorization" := by decide
  obtain ⟨h1, h2, h3, h4⟩ := hall b hb
  constructor
  · unfold buildUpstreamHeaders
    have eh : jsToLower "Host" = "host" := by decide
    have ed : jsToLower "x-amz-date" = "x-amz-date" := by decide
    have ec : jsToLower "x-amz-content-sha256" = "x-amz-content-sha256" := by decide
    have ea : jsToLower "Authorization" = "authorization" := by decide
    rw [hget_hset, ea, if_neg h4, hget_hset, ec, if_neg h3, hget_hset, ed,
      if_neg h2, hget_hset, eh, if_neg h1]
    exact hget_copyfold_blocked reqHeaders hempty b hb rfl
  · exact hget_stripStep_blocked _ b hb

/-- Witness for C3 at a concrete input: the Origin header is in the
purge-blocking set, the inbound request and the origin response both
carry it, and it is absent in both directions. -/
theorem purge_blocking_stripped_both_directions_witness :
    "origin" ∈ PURGE_BLOCKING_HEADERS ∧
    hget (buildUpstreamHeaders [("Origin", "https://app.example.com")]
      "bucket.endpoint.example" ⟨"20240101T000000Z", "h", "auth"⟩) "origin" = none ∧
    hget (buildClientHeaders [("origin", "https://app.example.com")] "/v.mp4"
      (some "https://app.example.com") "GET" [] 200) "origin" = none :=
  ⟨by decide,
   (purge_blocking_stripped_both_directions
     [("Origin", "https://app.example.com")] "bucket.endpoint.example"
     ⟨"20240101T000000Z", "h", "auth"⟩ [("origin", "https://app.example.com")]
     "/v.mp4" (some "https://app.example.com") "GET" [] 200 "origin"
     (by decide)).1,
   (purge_blocking_stripped_both_directions
     [("Origin", "https://app.example.com")] "bucket.endpoint.example"
     ⟨"20240101T000000Z", "h", "auth"⟩ [("origin", "https://app.example.com")]
     "/v.mp4" (some "https://app.example.com") "GET" [] 200 "origin"
     (by decide)).2⟩

theorem string_data_inj {a b : String} (h : a.data = b.data) : a = b := by
  cases a with
  | mk da =>
    cases b with
    | mk db => exact congrArg String.mk h

/-- C1: the final-response CORS decision is the four-case table in
precedence order - font extension gives the wildcard; else a present,
allowed Origin header is echoed; else an absent or literally "null"
Origin with a GET, HEAD or OPTIONS method gives the wildcard; otherwise
no CORS header is set, so each lookup falls through to whatever the
normalized origin-response headers already held. -/
theorem cors_final_four_case_table (oh : HMap) (p : String)
    (o : Option String) (m : String) (a : List String) (st : Nat) :
    (hget (buildClientHeaders oh p o m a st) "access-control-allow-origin" =
      (if isFontRequest p then some "*"
       else if corsCond2 o a then o
       else if isSafeNoCorsRequest m o then some "*"
       else hget (normalizeH oh) "access-control-allow-origin")) ∧
    (hget (buildClientHeaders oh p o m a st) "access-control-allow-methods" =
      (if corsGranted p o m a then some "GET, HEAD, OPTIONS"
       else hget (normalizeH oh) "access-control-allow-methods")) ∧
    (hget (buildClientHeaders oh p o m a st) "access-control-allow-headers" =
      (if corsGranted p o m a then some "Content-Type, Range"
       else hget (normalizeH oh) "access-control-allow-headers")) := by
  have ear : jsToLower "Accept-Ranges" = "accept-ranges" := by decide
  have hpass : ∀ q : String, q = "access-control-allow-origin" ∨
      q = "access-control-allow-methods" ∨ q = "access-control-allow-headers" →
      hget (hset (contentTypeStep (normalizeH oh) p) "Accept-Ranges" "bytes") q =
        hget (normalizeH oh) q := by
    intro q hq
    rw [hget_hset, ear]
    have h1 : q ≠ "accept-ranges" := by
      rcases hq with rfl | rfl | rfl <;> decide
    have h2 : q ≠ "content-type" := by
      rcases hq with rfl | rfl | rfl <;> decide
    rw [if_neg h1]
    exact hget_contentTypeStep_ne _ _ _ h2
  refine ⟨?_, ?_, ?_⟩
  · unfold buildClientHeaders
    rw [hget_stripStep_ne _ _ (by decide) (by decide) (by decide) (by decide),
      hget_cacheControlStep_ne _ _ _ (by decide), hget_applyCorsFinal_acao,
      hpass _ (Or.inl rfl)]
    by_cases hf : isFontRequest p = true
    · simp [hf]
    · by_cases hc : corsCond2 o a = true
      · cases o with
        | none => simp [corsCond2] at hc
        | some s => simp [hf, hc]
      · simp [hf, hc]
  · unfold buildClientHeaders
    rw [hget_stripStep_ne _ _ (by decide) (by decide) (by decide) (by decide),
      hget_cacheControlStep_ne _ _ _ (by decide), hget_applyCorsFinal_acam,
      hpass _ (Or.inr (Or.inl rfl))]
  · unfold buildClientHeaders
    rw [hget_stripStep_ne _ _ (by decide) (by decide) (by decide) (by decide),
      hget_cacheControlStep_ne _ _ _ (by decide), hget_applyCorsFinal_acah,
      hpass _ (Or.inr (Or.inr rfl))]

/-- C4 counterexample: for the same (path, Origin, method) triple the
preflight CORS header set is not equal to the header set the final
call site adds - the preflight carries Access-Control-Max-Age 86400,
the final response does not. -/
theorem cors_call_sites_not_identical_cx :
    preflightCorsHeaders "/f.woff" none "GET" [] ≠
      applyCorsFinal hempty "/f.woff" none "GET" [] ∧
    hget (preflightCorsHeaders "/f.woff" none "GET" [])
      "access-control-max-age" = some "86400" ∧
    hget (applyCorsFinal hempty "/f.woff" none "GET" [])
      "access-control-max-age" = none := by
  refine ⟨by decide, by decide, by decide⟩

/-- C4 amended: the two CORS call sites take the same grant decision and
agree on the allow-origin, allow-methods and allow-headers values, but
only the preflight site sets Access-Control-Max-Age (86400 when access
is granted); the final-response site never sets it. -/
theorem cors_call_sites_agree_except_max_age (p : String) (o : Option String)
    (m : String) (a : List String) :
    hget (preflightCorsHeaders p o m a) "access-control-allow-origin" =
      hget (applyCorsFinal hempty p o m a) "access-control-allow-origin" ∧
    hget (preflightCorsHeaders p o m a) "access-control-allow-methods" =
      hget (applyCorsFinal hempty p o m a) "access-control-allow-methods" ∧
    hget (preflightCorsHeaders p o m a) "access-control-allow-headers" =
      hget (applyCorsFinal hempty p o m a) "access-control-allow-headers" ∧
    hget (applyCorsFinal hempty p o m a) "access-control-max-age" = none ∧
    hget (preflightCorsHeaders p o m a) "access-control-max-age" =
      (if corsGranted p o m a then some "86400" else none) := by
  have e1 : jsToLower "Access-Control-Allow-Origin" = "access-control-allow-origin" := by decide
  have e2 : jsToLower "Access-Control-Allow-Methods" = "access-control-allow-methods" := by decide
  have e3 : jsToLower "Access-Control-Allow-Headers" = "access-control-allow-headers" := by decide
  have e4 : jsToLower "Access-Control-Max-Age" = "access-control-max-age" := by decide
  by_cases hf : isFontRequest p = true
  · simp [preflightCorsHeaders, applyCorsFinal, corsGranted, hf, hget_hset,
      e1, e2, e3, e4, hempty, hget_nil]
  · by_cases hc : corsCond2 o a = true
    · simp [preflightCorsHeaders, applyCorsFinal, corsGranted, hf, hc,
        hget_hset, e1, e2, e3, e4, hempty, hget_nil]
    · by_cases hs : isSafeNoCorsRequest m o = true
      · simp [preflightCorsHeaders, applyCorsFinal, corsGranted, hf, hc, hs,
          hget_hset, e1, e2, e3, e4, hempty, hget_nil]
      · simp [preflightCorsHeaders, applyCorsFinal, corsGranted, hf, hc, hs,
          hempty, hget_nil]

theorem dotMatch_iff (d : List Char) (l : List Char) :
    dotMatch d l = true ↔ ∃ p, l = p ++ '.' :: d := by
  induction l with
  | nil =>
    simp only [dotMatch, Bool.false_eq_true, false_iff]
    rintro ⟨p, hp⟩
    have hlen := congrArg List.length hp
    simp only [List.length_nil, List.length_append, List.length_cons] at hlen
    omega
  | cons c rest ih =>
    simp only [dotMatch, Bool.or_eq_true, Bool.and_eq_true, beq_iff_eq]
    rw [ih]
    constructor
    · rintro (⟨hc, hr⟩ | ⟨p, hp⟩)
      · exact ⟨[], by simp [hc, hr]⟩
      · exact ⟨c :: p, by simp [hp]⟩
    · rintro ⟨p, hp⟩
      cases p with
      | nil =>
        simp only [List.nil_append] at hp
        injection hp with h1 h2
        exact Or.inl ⟨h1, h2⟩
      | cons q qs =>
        simp only [List.cons_append] at hp
        injection hp with h1 h2
        exact Or.inr ⟨qs, h2⟩

/-- C8: a hostname is matched by the pattern built from a configured
domain exactly when it equals the domain or ends with a dot followed by
the domain; the lifted statement over a whole configured list follows,
and a hostname that merely ends with the domain text without the dot
separator is not matched. -/
theorem allowed_origin_suffix_characterization (host domain : String)
    (ds : List String) :
    (patternTest domain host = true ↔
      (host = domain ∨ ('.' :: domain.data) <:+ host.data)) ∧
    (ds.any (fun dom => patternTest dom host) = true ↔
      ∃ dom ∈ ds, (host = dom ∨ ('.' :: dom.data) <:+ host.data)) ∧
    patternTest "example.com" "evilexample.com" = false := by
  have part1 : ∀ dom : String, (patternTest dom host = true ↔
      (host = dom ∨ ('.' :: dom.data) <:+ host.data)) := by
    intro dom
    simp only [patternTest, Bool.or_eq_true, beq_iff_eq]
    rw [dotMatch_iff]
    constructor
    · rintro (hd | ⟨p, hp⟩)
      · exact Or.inl (string_data_inj hd)
      · exact Or.inr ⟨p, hp.symm⟩
    · rintro (rfl | ⟨t, ht⟩)
      · exact Or.inl rfl
      · exact Or.inr ⟨t, ht.symm⟩
  refine ⟨part1 domain, ?_, by decide⟩
  rw [List.any_eq_true]
  constructor
  · rintro ⟨dom, hmem, hp⟩
    exact ⟨dom, hmem, (part1 dom).1 hp⟩
  · rintro ⟨dom, hmem, hp⟩
    exact ⟨dom, hmem, (part1 dom).2 hp⟩

/-! ## Routing claims -/

/-- Concrete fixtures used by witnesses and counterexamples. -/
def envBase : Env :=
  { ALLOWED_ORIGINS := some "example.com"
    DISABLE_HTTPS_REDIRECT := none
    CF_ZONE_ID := some "zone1"
    CF_API_TOKEN := some "apitok"
    CF_PURGE_TOKEN := none }

def respOk : Response :=
  { status := 200
    headers := [("content-type", "application/octet-stream")]
    body := some "DATA" }

def reqOptions : Req :=
  { method := "OPTIONS", protocol := "https:", host := "cdn.example"
    pathname := "/style.css", search := "", origin := some "https://app.example.com"
    headers := [], purgeBody := none }

def reqPurgeGet : Req :=
  { method := "GET", protocol := "https:", host := "cdn.example"
    pathname := "/.purge", search := "", origin := none
    headers := [], purgeBody := none }

theorem route_skips_redirect (req : Req) (env : Env)
    (hh : req.protocol ≠ "http:" ∨ truthy env.DISABLE_HTTPS_REDIRECT = true) :
    (req.protocol == "http:" && !truthy env.DISABLE_HTTPS_REDIRECT) = false := by
  cases hh with
  | inl hp => simp [beq_eq_false_iff_ne.2 hp]
  | inr ht => simp [ht]

/-- C10: an OPTIONS request that passes the HTTPS-redirect check is
routed to the preflight branch, answered 204 with an empty body and the
preflight CORS headers, and neither the storage origin nor the purge API
is fetched. -/
theorem options_preflight_204_no_upstream (req : Req) (env : Env)
    (upstream purgeApiResp : Response)
    (hm : req.method = "OPTIONS")
    (hh : req.protocol ≠ "http:" ∨ truthy env.DISABLE_HTTPS_REDIRECT = true) :
    route req env = .preflight ∧
    workerFetch req env upstream purgeApiResp =
      { status := 204
        headers := preflightCorsHeaders req.pathname req.origin req.method
          (allowedOf env.ALLOWED_ORIGINS)
        body := none } ∧
    upstreamCalls (route req env) = (0, 0) := by
  have hr : route req env = .preflight := by
    unfold route
    rw [route_skips_redirect req env hh]
    simp [hm]
  refine ⟨hr, ?_, by rw [hr]; rfl⟩
  unfold workerFetch
  rw [hr]

/-- Witness for C10 at a concrete OPTIONS request over https. -/
theorem options_preflight_204_no_upstream_witness :
    reqOptions.method = "OPTIONS" ∧
    (reqOptions.protocol ≠ "http:" ∨ truthy envBase.DISABLE_HTTPS_REDIRECT = true) ∧
    (route reqOptions envBase = .preflight ∧
     workerFetch reqOptions envBase respOk respOk =
       { status := 204
         headers := preflightCorsHeaders reqOptions.pathname reqOptions.origin
           reqOptions.method (allowedOf envBase.ALLOWED_ORIGINS)
         body := none } ∧
     upstreamCalls (route reqOptions envBase) = (0, 0)) :=
  ⟨rfl, Or.inl (by decide),
   options_preflight_204_no_upstream reqOptions envBase respOk respOk rfl
     (Or.inl (by decide))⟩

/-- C5 counterexample: a GET request to the purge path is not answered
405; it is routed to the proxy pipeline, the storage origin is fetched,
and the client receives the proxied upstream status. -/
theorem purge_wrong_method_not_405_cx :
    route reqPurgeGet envBase = .proxy ∧
    (upstreamCalls (route reqPurgeGet envBase)).1 = 1 ∧
    (workerFetch reqPurgeGet envBase respOk respOk).status = 200 ∧
    (workerFetch reqPurgeGet envBase respOk respOk).status ≠ 405 := by
  refine ⟨rfl, rfl, rfl, by decide⟩

/-- C5 amended: the router special-cases only POST on the purge path, so
a non-POST, non-OPTIONS request to the purge path that passes the
HTTPS-redirect check is handled by the proxy pipeline - the storage
origin is fetched once and the response is the proxied one; the purge
handler with its 405 branch is never entered. -/
theorem purge_wrong_method_routed_to_proxy (req : Req) (env : Env)
    (upstream purgeApiResp : Response)
    (hp : req.pathname = "/.purge") (hm : req.method ≠ "POST")
    (hopt : req.method ≠ "OPTIONS")
    (hh : req.protocol ≠ "http:" ∨ truthy env.DISABLE_HTTPS_REDIRECT = true) :
    route req env = .proxy ∧
    (upstreamCalls (route req env)).1 = 1 ∧
    workerFetch req env upstream purgeApiResp =
      { status := upstream.status
        headers := buildClientHeaders upstream.headers req.pathname req.origin
          req.method (allowedOf env.ALLOWED_ORIGINS) upstream.status
        body := upstream.body } := by
  have hr : route req env = .proxy := by
    unfold route
    rw [route_skips_redirect req env hh]
    simp [beq_eq_false_iff_ne.2 hopt, beq_eq_false_iff_ne.2 hm]
  refine ⟨hr, by rw [hr]; rfl, ?_⟩
  unfold workerFetch
  rw [hr]

/-- Witness for the amended C5 at the concrete GET purge-path request. -/
theorem purge_wrong_method_routed_to_proxy_witness :
    reqPurgeGet.pathname = "/.purge" ∧ reqPurgeGet.method ≠ "POST" ∧
    (route reqPurgeGet envBase = .proxy ∧
     (upstreamCalls (route reqPurgeGet envBase)).1 = 1 ∧
     workerFetch reqPurgeGet envBase respOk respOk =
       { status := respOk.status
         headers := buildClientHeaders respOk.headers reqPurgeGet.pathname
           reqPurgeGet.origin reqPurgeGet.method
           (allowedOf envBase.ALLOWED_ORIGINS) respOk.status
         body := respOk.body }) :=
  ⟨rfl, by decide,
   purge_wrong_method_routed_to_proxy reqPurgeGet envBase respOk respOk rfl
     (by decide) (by decide) (Or.inl (by decide))⟩

/-! ## Purge validation claims -/

def envSecret : Env :=
  { ALLOWED_ORIGINS := none
    DISABLE_HTTPS_REDIRECT := none
    CF_ZONE_ID := some "zone1"
    CF_API_TOKEN := some "apitok"
    CF_PURGE_TOKEN := some "s3cret" }

def purgeOutcomeStatus : PurgeOutcome → Option Nat
  | .response s _ => some s
  | .apiCall _ _ => none

/-- C7 counterexample: with a configured purge secret, a mismatched (here
absent) token and an absent url field, the handler answers 401, not the
400 the claim promises for an absent url - the token check precedes the
url check. -/
theorem purge_401_precedes_missing_url_cx :
    handlePurge "POST" (some "application/json")
      (some { url := none, headersOrigin := none, token := none }) envSecret =
      .response 401 "Unauthorized" ∧
    purgeOutcomeStatus (handlePurge "POST" (some "application/json")
      (some { url := none, headersOrigin := none, token := none }) envSecret) ≠
      some 400 :=
  ⟨by decide, by decide⟩

/-- C7 amended: with the required configuration present, the purge
validations run in the order token (401) before url (400): a configured
secret with a non-matching token gives 401 whatever the url field holds;
when the token check passes, an absent or falsy url gives 400, and a
truthy url that the URL constructor rejects gives 400; the outbound
purge-API call is reached only when every validation passed; and with no
configured secret the token field has no influence on the outcome. -/
theorem purge_validation_order (ct : Option String) (b : PurgeBody) (env : Env)
    (hct : strContains (ct.getD "") "application/json" = true)
    (hz : truthy env.CF_ZONE_ID = true) (ha : truthy env.CF_API_TOKEN = true) :
    ((truthy env.CF_PURGE_TOKEN && !(tokenEq b.token env.CF_PURGE_TOKEN)) = true →
      handlePurge "POST" ct (some b) env = .response 401 "Unauthorized") ∧
    ((truthy env.CF_PURGE_TOKEN && !(tokenEq b.token env.CF_PURGE_TOKEN)) = false →
      jsTruthy b.url = false →
      handlePurge "POST" ct (some b) env =
        .response 400 "Missing \x27url\x27 parameter") ∧
    ((truthy env.CF_PURGE_TOKEN && !(tokenEq b.token env.CF_PURGE_TOKEN)) = false →
      jsTruthy b.url = true → isAbsoluteUrl (jvalToString b.url) = false →
      handlePurge "POST" ct (some b) env = .response 400 "Invalid URL format") ∧
    (∀ u oh, handlePurge "POST" ct (some b) env = .apiCall u oh →
      (truthy env.CF_PURGE_TOKEN && !(tokenEq b.token env.CF_PURGE_TOKEN)) = false ∧
      jsTruthy b.url = true ∧ isAbsoluteUrl (jvalToString b.url) = true) ∧
    (truthy env.CF_PURGE_TOKEN = false → ∀ t : Option JVal,
      handlePurge "POST" ct (some b) env =
        handlePurge "POST" ct (some { b with token := t }) env) := by
  have hred : ∀ b0 : PurgeBody, handlePurge "POST" ct (some b0) env =
      (if truthy env.CF_PURGE_TOKEN && !(tokenEq b0.token env.CF_PURGE_TOKEN) then
        PurgeOutcome.response 401 "Unauthorized"
      else if !(jsTruthy b0.url) then
        PurgeOutcome.response 400 "Missing \x27url\x27 parameter"
      else if !(isAbsoluteUrl (jvalToString b0.url)) then
        PurgeOutcome.response 400 "Invalid URL format"
      else
        PurgeOutcome.apiCall (jvalToString b0.url)
          (match b0.headersOrigin with
           | some o => o
           | none => urlOrigin (jvalToString b0.url))) := by
    intro b0
    simp [handlePurge, hct, hz, ha]
  refine ⟨?_, ?_, ?_, ?_, ?_⟩
  · intro htok
    rw [hred, if_pos htok]
  · intro htok hurl
    rw [hred, if_neg (by simp [htok]), if_pos (by simp [hurl])]
  · intro htok hurl hvalid
    rw [hred, if_neg (by simp [htok]), if_neg (by simp [hurl]),
      if_pos (by simp [hvalid])]
  · intro u oh happ
    rw [hred] at happ
    by_cases htok : (truthy env.CF_PURGE_TOKEN && !(tokenEq b.token env.CF_PURGE_TOKEN)) = true
    · rw [if_pos htok] at happ; cases happ
    · rw [if_neg htok] at happ
      refine ⟨by simpa using htok, ?_, ?_⟩
      · by_cases hurl : jsTruthy b.url = true
        · exact hurl
        · rw [if_pos (by simp [hurl])] at happ; cases happ
      · by_cases hurl : jsTruthy b.url = true
        · rw [if_neg (by simp [hurl])] at happ
          by_cases hv : isAbsoluteUrl (jvalToString b.url) = true
          · exact hv
          · rw [if_pos (by simp [hv])] at happ; cases happ
        · rw [if_pos (by simp [hurl])] at happ; cases happ
  · intro hsec t
    rw [hred, hred]
    simp [hsec]

/-- Witness for the amended C7: with no configured secret and an absent
url, the handler answers 400 before any outbound call. -/
theorem purge_validation_order_witness :
    handlePurge "POST" (some "application/json")
      (some { url := none, headersOrigin := none, token := none }) envBase =
      .response 400 "Missing \x27url\x27 parameter" :=
  (purge_validation_order (some "application/json")
    { url := none, headersOrigin := none, token := none } envBase
    (by decide) (by decide) (by decide)).2.1 (by decide) (by decide)

/-! ## Signing claims -/

theorem str_append_cancel_left {a b c : String} (h : a ++ b = a ++ c) :
    b = c := by
  apply string_data_inj
  have hd := congrArg String.data h
  rw [String.data_append, String.data_append] at hd
  exact List.append_cancel_left hd

theorem payloadHash_eq {B : Type} (M : CryptoM B) (p : String) :
    (if p != "" then M.toHex (M.sha256 p) else M.toHex (M.sha256 "")) =
      M.toHex (M.sha256 p) := by
  by_cases hp : p = ""
  · subst hp; simp
  · simp [hp]

/-- C2: the signer is a pure function of (method, URL, headers, body,
credentials) and the captured timestamp, so two invocations on identical
inputs at the same instant agree on all three emitted values; and under
the collision-freeness idealization of the platform hash primitives
(SHA-256 injective, each keyed HMAC injective in its message, the hex
rendering injective), two bodies that differ in at least one character
produce different x-amz-content-sha256 values and different
Authorization values. -/
theorem signing_deterministic_body_sensitive {B : Type} (M : CryptoM B)
    (hsha : Function.Injective M.sha256)
    (hhex : Function.Injective M.toHex)
    (hhmac : ∀ k, Function.Injective (M.hmacB k))
    (method : String) (url : UrlParts) (headers : HMap) (config : S3Cfg)
    (amzDate : String) (body1 body2 : String) (hne : body1 ≠ body2) :
    signAwsRequest M method url headers body1 config amzDate =
      signAwsRequest M method url headers body1 config amzDate ∧
    (signAwsRequest M method url headers body1 config amzDate).contentSha ≠
      (signAwsRequest M method url headers body2 config amzDate).contentSha ∧
    (signAwsRequest M method url headers body1 config amzDate).authorization ≠
      (signAwsRequest M method url headers body2 config amzDate).authorization := by
  refine ⟨rfl, ?_, ?_⟩
  · intro hcs
    simp only [signAwsRequest, payloadHash_eq] at hcs
    exact hne (hsha (hhex hcs))
  · intro hauth
    simp only [signAwsRequest, payloadHash_eq] at hauth
    replace hauth := str_append_cancel_left hauth
    replace hauth := hhmac _ (hhex hauth)
    replace hauth := str_append_cancel_left hauth
    replace hauth := hsha (hhex hauth)
    replace hauth := congrArg String.data hauth
    simp only [String.data_append, List.append_assoc,
      List.append_cancel_left_eq] at hauth
    have hlen : (M.toHex (M.sha256 body1)).data.length =
        (M.toHex (M.sha256 body2)).data.length := by
      have hl := congrArg List.length hauth
      simp only [List.length_append] at hl
      omega
    exact hne (hsha (hhex (string_data_inj (List.append_inj hauth hlen).1)))

def cfgFull : S3Cfg :=
  { bucket := some "bucket", endpoint := some "endpoint.example"
    region := some "auto", accessKeyId := some "AKID"
    secretAccessKey := some "sk" }

/-- Concrete crypto model for witnesses: digests are strings, the hash is
the identity and the keyed hash tags the key in front of the message;
all three are injective in the required arguments. -/
def MStr : CryptoM String :=
  { sha256 := fun s => s
    hmacS := fun k m => k ++ "|" ++ m
    hmacB := fun k m => k ++ "|" ++ m
    toHex := fun b => b }

theorem MStr_hmacB_inj (k : String) : Function.Injective (MStr.hmacB k) :=
  fun m1 m2 h => str_append_cancel_left (c := m2) h

/-- Witness for C2 at concrete distinct bodies. -/
theorem signing_deterministic_body_sensitive_witness :
    ("bodyA" : String) ≠ "bodyB" ∧
    (signAwsRequest MStr "PUT" ⟨"bucket.endpoint.example", "/a.mp4", ""⟩ []
        "bodyA" cfgFull "20240101T000000Z").contentSha ≠
      (signAwsRequest MStr "PUT" ⟨"bucket.endpoint.example", "/a.mp4", ""⟩ []
        "bodyB" cfgFull "20240101T000000Z").contentSha ∧
    (signAwsRequest MStr "PUT" ⟨"bucket.endpoint.example", "/a.mp4", ""⟩ []
        "bodyA" cfgFull "20240101T000000Z").authorization ≠
      (signAwsRequest MStr "PUT" ⟨"bucket.endpoint.example", "/a.mp4", ""⟩ []
        "bodyB" cfgFull "20240101T000000Z").authorization :=
  ⟨by decide,
   (signing_deterministic_body_sensitive MStr (fun _ _ h => h) (fun _ _ h => h)
     MStr_hmacB_inj "PUT" ⟨"bucket.endpoint.example", "/a.mp4", ""⟩ [] cfgFull
     "20240101T000000Z" "bodyA" "bodyB" (by decide)).2.1,
   (signing_deterministic_body_sensitive MStr (fun _ _ h => h) (fun _ _ h => h)
     MStr_hmacB_inj "PUT" ⟨"bucket.endpoint.example", "/a.mp4", ""⟩ [] cfgFull
     "20240101T000000Z" "bodyA" "bodyB" (by decide)).2.2⟩

def cfgPartial : S3Cfg :=
  { bucket := some "bucket", endpoint := some "endpoint.example"
    region := some "auto", accessKeyId := none, secretAccessKey := some "sk" }

set_option maxRecDepth 100000 in
/-- C6 counterexample: the configuration with a missing access key id is
accepted and a request is signed with it - the signer returns a complete
Authorization value in which the missing field is rendered as the text
"undefined".  No startup validation exists to rule this out. -/
theorem partial_credentials_signed_cx :
    cfgPartial.accessKeyId = none ∧
    (signAwsRequest MStr "GET" ⟨"bucket.endpoint.example", "/a.mp4", ""⟩ []
        "" cfgPartial "20240101T000000Z").authorization =
      "AWS4-HMAC-SHA256 Credential=undefined/20240101/auto/s3/aws4_request, SignedHeaders=host;x-amz-content-sha256;x-amz-date, Signature=AWS4sk|20240101|auto|s3|aws4_request|AWS4-HMAC-SHA256\n20240101T000000Z\n20240101/auto/s3/aws4_request\nGET\n/a.mp4\n\nhost:bucket.endpoint.example\nx-amz-content-sha256:\nx-amz-date:20240101T000000Z\n\nhost;x-amz-content-sha256;x-amz-date\n" :=
  ⟨rfl, rfl⟩

/-- C6 amended: no field-level validation of the storage configuration
exists; the signer is total over configurations and, when the access key
id is missing, still emits an Authorization value, whose credential
field renders the missing value as the text "undefined".  Only a missing
or unparsable configuration file stops the module from loading. -/
theorem signer_total_undefined_credential {B : Type} (M : CryptoM B)
    (method : String) (url : UrlParts) (headers : HMap) (payload : String)
    (config : S3Cfg) (amzDate : String)
    (hmissing : config.accessKeyId = none) :
    ∃ rest : List Char,
      (signAwsRequest M method url headers payload config amzDate).authorization.data =
        ("AWS4-HMAC-SHA256 Credential=undefined/").data ++ rest := by
  have hpref : ("AWS4-HMAC-SHA256 Credential=undefined/").data =
      "AWS4-HMAC-SHA256".data ++ (" Credential=".data ++
        ("undefined".data ++ "/".data)) := by decide
  exact ⟨_, by
    simp only [signAwsRequest, hmissing, jsStr, hpref, String.data_append,
      List.append_assoc]
    rfl⟩

/-- Witness for the amended C6 at the concrete partial configuration. -/
theorem signer_total_undefined_credential_witness :
    cfgPartial.accessKeyId = none ∧
    ∃ rest : List Char,
      (signAwsRequest MStr "GET" ⟨"bucket.endpoint.example", "/a.mp4", ""⟩ []
          "" cfgPartial "20240101T000000Z").authorization.data =
        ("AWS4-HMAC-SHA256 Credential=undefined/").data ++ rest :=
  ⟨rfl,
   signer_total_undefined_credential MStr "GET"
     ⟨"bucket.endpoint.example", "/a.mp4", ""⟩ [] "" cfgPartial
     "20240101T000000Z" rfl⟩

end CdnWorker
